import Mathlib

/-!
Verification development for the NT-303 control-mapping layer
(src/nt_303.cpp, src/compat.h, src/nt_soft_takeover.h).

Floating-point values of the C code are embedded as exact rationals (ℚ):
every constant appearing in the claims (0.5, 1.0, 1.5, 2.5, 0.02, ...) is
exactly representable, and the control logic consists of comparisons,
additions and multiplications on such values.  The two transcendental
library calls (powf in the pot scaling, the 2^x in cvToFreq) have no exact
rational counterpart; powf is abstracted as an explicit function parameter
`qpow`, and the oscillator-frequency engine call records the CV argument
from which the (strictly monotone, hence injective) map
cvToFreq(cv) = 440·2^((cv·12−9)/12) computes the frequency.
-/

namespace NT303

/-- Embedding of cvToMidiNote from compat.h: note = 60 + cv·12 is clamped
to [0,127] as a float and then converted to int by adding 0.5 and
truncating; the truncated value is nonnegative, so truncation is floor. -/
def cvToMidiNote (cv : ℚ) : ℤ :=
  let note := 60 + cv * 12
  let note1 := if note < 0 then 0 else note
  let note2 := if note1 > 127 then 127 else note1
  ⌊note2 + 1/2⌋

/-- The spec's formula for the discrete pitch mapping, written from the
spec's words (`clamp(round(60 + cv·12), 0, 127)`) for comparison with the
source's cvToMidiNote. -/
def specNoteClampRound (cv : ℚ) : ℤ :=
  min 127 (max 0 (round (60 + cv * 12)))

/-- Calls issued by the control layer into the Open303 voice engine,
in the order the code makes them.  setOscFreqFromCV records the pitch CV
value: the engine receives cvToFreq(cv) = 440·2^((cv·12−9)/12), an
injective transcendental map, so recording its argument loses nothing. -/
inductive SynthEvent where
  | noteOn (note : ℤ) (velocity : ℤ)
  | allNotesOff
  | setOscFreqFromCV (cv : ℚ)
  | setAccentGain (level : ℚ)
  | setCutoff (v : ℚ)
  | setResonance (v : ℚ)
  | setDecay (v : ℚ)
  | setPitchBend (semitones : ℚ)
  | setSampleRate (sr : ℚ)
  | getSample
deriving DecidableEq, Repr

/-- A note event is a noteOn or an allNotesOff call. -/
def isNoteEvent : SynthEvent → Bool
  | .noteOn _ _ => true
  | .allNotesOff => true
  | _ => false

/-- Number of noteOn calls in an event list. -/
def countNoteOns (evs : List SynthEvent) : ℕ :=
  (evs.filter fun e => match e with | .noteOn _ _ => true | _ => false).length

/-- The Gate/CV Note Tracker state held in _NT303Algorithm
(fields prevGate, cvNoteActive, currentCVNote, smoothCutoff,
smoothResonance, smoothDecay, lastSampleRate). -/
structure TrackerState where
  prevGate : Bool
  cvNoteActive : Bool
  currentCVNote : ℤ
  smoothCutoff : ℚ
  smoothResonance : ℚ
  smoothDecay : ℚ
  lastSampleRate : ℚ
deriving DecidableEq, Repr

/-- Inputs to one step() call: numFramesBy4 and the global sample rate,
the smoothing targets read from the parameter values v[kParamCutoff],
v[kParamResonance], v[kParamDecay], and the three CV bus pointers; a
pointer is null (none) exactly when the corresponding routing parameter
is 0, and otherwise yields the per-sample bus contents. -/
structure StepCfg where
  numFramesBy4 : ℕ
  sampleRate : ℚ
  targetCutoff : ℚ
  targetResonance : ℚ
  targetDecay : ℚ
  pitchCV : Option (ℕ → ℚ)
  gateCV : Option (ℕ → ℚ)
  accentCV : Option (ℕ → ℚ)

/-- The accent level computed while the gate is high:
(accentCV − 2.5)/2.5, clamped below to 0 then above to 1,
exactly as in step() lines 347–349. -/
def accentLevel (a : ℚ) : ℚ :=
  let l0 := (a - 5/2) / (5/2)
  let l1 := if l0 < 0 then 0 else l0
  if l1 > 1 then 1 else l1

/-- One iteration of the per-sample loop body of step() (nt_303.cpp
lines 318–368) at loop index i: exponential smoothing of
cutoff/resonance/decay, engine push of the smoothed values every 8th
sample, then — when the gate CV is patched — Schmitt-trigger gate
detection (rising threshold 1.5 V strict, holding threshold 1.0 V
inclusive), note-on with accent-derived velocity on a rising edge,
continuous oscillator-frequency update from pitch CV while high,
accent-gain update while high, all-notes-off on a falling edge, and
finally the getSample pull.  Audio-output bus mixing is omitted: it
writes only the output bus, never the tracked state. -/
def stepSample (cfg : StepCfg) (i : ℕ) (st : TrackerState) :
    TrackerState × List SynthEvent :=
  let sc := st.smoothCutoff + (1/1000) * (cfg.targetCutoff - st.smoothCutoff)
  let sr := st.smoothResonance + (1/1000) * (cfg.targetResonance - st.smoothResonance)
  let sd := st.smoothDecay + (1/1000) * (cfg.targetDecay - st.smoothDecay)
  let st1 := { st with smoothCutoff := sc, smoothResonance := sr, smoothDecay := sd }
  let evPush :=
    if i % 8 = 0 then
      [SynthEvent.setCutoff sc, SynthEvent.setResonance sr, SynthEvent.setDecay sd]
    else []
  match cfg.gateCV with
  | none => (st1, evPush ++ [SynthEvent.getSample])
  | some g =>
      let gv := g i
      let gateHigh : Bool := if st.prevGate then decide (1 ≤ gv) else decide (3/2 < gv)
      let accentHit : Bool :=
        match cfg.accentCV with
        | some a => decide (5/2 < a i)
        | none => false
      let evOn :=
        if gateHigh && !st.prevGate then
          [SynthEvent.noteOn 60 (if accentHit then 127 else 80)]
        else []
      let active1 := if gateHigh && !st.prevGate then true else st.cvNoteActive
      let evPitch :=
        match cfg.pitchCV with
        | some p => if gateHigh then [SynthEvent.setOscFreqFromCV (p i)] else []
        | none => []
      let evAcc :=
        match cfg.accentCV with
        | some a =>
            if gateHigh then [SynthEvent.setAccentGain (accentLevel (a i) * (1/2))]
            else []
        | none => []
      let evOff := if !gateHigh && st.prevGate then [SynthEvent.allNotesOff] else []
      let active2 := if !gateHigh && st.prevGate then false else active1
      let st2 := { st1 with prevGate := gateHigh, cvNoteActive := active2 }
      (st2, evPush ++ evOn ++ evPitch ++ evAcc ++ evOff ++ [SynthEvent.getSample])

/-- One step() call: the sample-rate check before the loop, then
numFramesBy4·4 iterations of the per-sample body, accumulating engine
calls in order. -/
def stepBlock (cfg : StepCfg) (st : TrackerState) : TrackerState × List SynthEvent :=
  let init :=
    if cfg.sampleRate = st.lastSampleRate then (st, ([] : List SynthEvent))
    else ({ st with lastSampleRate := cfg.sampleRate },
          [SynthEvent.setSampleRate cfg.sampleRate])
  (List.range (4 * cfg.numFramesBy4)).foldl
    (fun acc i =>
      let r := stepSample cfg i acc.1
      (r.1, acc.2 ++ r.2))
    init

/-- Embedding of midiMessage (nt_303.cpp lines 371–401): channel filter
(parameter value 0 means any channel, otherwise the status byte's low
nibble must equal parameter − 1), then dispatch on the status nibble:
note-on, note-off as noteOn with velocity 0, CC 120/123 as all-notes-off,
and 14-bit pitch bend mapped to ±2 semitones. -/
def midiMessage (midiChParam : ℤ) (b0 b1 b2 : ℕ) : List SynthEvent :=
  let channel := b0 &&& 0x0f
  let status := b0 &&& 0xf0
  if midiChParam > 0 ∧ (channel : ℤ) ≠ midiChParam - 1 then []
  else if status = 0x90 then [SynthEvent.noteOn b1 b2]
  else if status = 0x80 then [SynthEvent.noteOn b1 0]
  else if status = 0xB0 then
    (if b1 = 120 ∨ b1 = 123 then [SynthEvent.allNotesOff] else [])
  else if status = 0xE0 then
    [SynthEvent.setPitchBend ((((((b2 <<< 7) ||| b1 : ℕ) : ℤ) - 8192 : ℤ) * 2 : ℚ) / 8192)]
  else []

/-- The scaling descriptor of one pot mapping (nt_soft_takeover.h
PotScaling): linear min..max, or exponential min·expBase^position. -/
structure PotScaling where
  sMin : ℚ
  sMax : ℚ
  exponential : Bool
  expBase : ℚ
deriving DecidableEq, Repr

/-- Per-pot configuration: the two multiplexed parameters and their
scalings (nt_soft_takeover.h PotConfig). -/
structure PotConfig where
  normalParam : ℤ
  altParam : ℤ
  normalScaling : PotScaling
  altScaling : PotScaling
deriving DecidableEq, Repr

/-- The soft-takeover control-surface state (nt_soft_takeover.h
SoftTakeoverState). -/
structure SoftTakeoverState where
  potButtonWasPressed : Fin 3 → Bool
  lastPotPos : Fin 3 → ℚ
  normalTarget : Fin 3 → ℚ
  altTarget : Fin 3 → ℚ
  activeParam : ℤ
  activeParamValue : ℤ
  displayTimeout : ℤ
deriving DecidableEq

/-- initSoftTakeover: all pot positions and targets at 0.5, no active
display. -/
def initSoftTakeover : SoftTakeoverState where
  potButtonWasPressed := fun _ => false
  lastPotPos := fun _ => 1/2
  normalTarget := fun _ => 1/2
  altTarget := fun _ => 1/2
  activeParam := -1
  activeParamValue := 0
  displayTimeout := 0

/-- The C cast (int)x: truncation toward zero. -/
def intTrunc (x : ℚ) : ℤ := if 0 ≤ x then ⌊x⌋ else ⌈x⌉

/-- The two in-place clamping ifs of processPot
(if below 0 set to 0, then if above 1 set to 1). -/
def clamp01 (x : ℚ) : ℚ :=
  let y := if x < 0 then 0 else x
  if y > 1 then 1 else y

/-- One UI tick's control snapshot as seen by processPot: for each pot,
whether its change flag (kNT_potL/C/R) is set, whether its button flag
(kNT_potButtonL/C/R) is set, its absolute position, and the two encoder
deltas. -/
structure UiData where
  potMoved : Fin 3 → Bool
  buttonPressed : Fin 3 → Bool
  pots : Fin 3 → ℚ
  encoders : Fin 2 → ℤ

/-- Result record of processPot. -/
structure PotResult where
  paramIdx : ℤ
  paramValue : ℚ
  changed : Bool
deriving DecidableEq, Repr

section SoftTakeover

variable (qpow : ℚ → ℚ → ℚ)

/-- scalingToValue from nt_soft_takeover.h; powf is abstracted as the
parameter qpow (base, then exponent), since the transcendental powf has
no exact rational counterpart. -/
def scalingToValue (s : PotScaling) (potPos : ℚ) : ℚ :=
  if s.exponential then s.sMin * qpow s.expBase potPos
  else s.sMin + potPos * (s.sMax - s.sMin)

/-- Embedding of processPot (nt_soft_takeover.h lines 80–130): when the
pot moved this tick, the delta from the last seen position is added to
the button-selected target and clamped to [0,1]; the target then snaps
to the physical position when strictly within 0.02 of it or when the
physical position is at an extreme; the reported value is the scaling of
the (possibly snapped) target; the physical position is recorded
unconditionally.  Returns the updated state and the PotResult. -/
def processPot (st : SoftTakeoverState) (potIndex : Fin 3) (data : UiData)
    (config : PotConfig) (displayTimeoutFrames : ℤ) :
    SoftTakeoverState × PotResult :=
  let buttonPressed := data.buttonPressed potIndex
  if data.potMoved potIndex then
    let potPos := data.pots potIndex
    let delta := potPos - st.lastPotPos potIndex
    let target0 := if buttonPressed then st.altTarget potIndex else st.normalTarget potIndex
    let scaling := if buttonPressed then config.altScaling else config.normalScaling
    let paramIdx := if buttonPressed then config.altParam else config.normalParam
    let t3 := clamp01 (target0 + delta)
    let inSync : Bool :=
      decide (|potPos - t3| < 1/50) || decide (potPos ≤ 1/100) || decide (potPos ≥ 99/100)
    let t4 := if inSync then potPos else t3
    let paramValue := scalingToValue qpow scaling t4
    let st' : SoftTakeoverState :=
      { potButtonWasPressed := Function.update st.potButtonWasPressed potIndex buttonPressed
        lastPotPos := Function.update st.lastPotPos potIndex potPos
        normalTarget :=
          if buttonPressed then st.normalTarget
          else Function.update st.normalTarget potIndex t4
        altTarget :=
          if buttonPressed then Function.update st.altTarget potIndex t4
          else st.altTarget
        activeParam := paramIdx
        activeParamValue := intTrunc paramValue
        displayTimeout := displayTimeoutFrames }
    (st', { paramIdx := paramIdx, paramValue := paramValue, changed := true })
  else
    ({ st with potButtonWasPressed := Function.update st.potButtonWasPressed potIndex buttonPressed },
     { paramIdx := -1, paramValue := 0, changed := false })

end SoftTakeover

/-- The full algorithm state relevant to the claims: the Note Tracker
fields and the soft-takeover UI state of _NT303Algorithm. -/
structure AlgState where
  tracker : TrackerState
  ui : SoftTakeoverState
deriving DecidableEq

/-- State after construct(): gate low, no CV note, note 60, smoothed
values at the parameter defaults (cutoff 1000, resonance 50, decay 300),
lastSampleRate from the host globals, UI state from initSoftTakeover. -/
def initAlgState (sr : ℚ) : AlgState where
  tracker :=
    { prevGate := false
      cvNoteActive := false
      currentCVNote := 60
      smoothCutoff := 1000
      smoothResonance := 50
      smoothDecay := 300
      lastSampleRate := sr }
  ui := initSoftTakeover

/-- step() on the full algorithm state: it reads and writes only the
tracker fields and never touches the soft-takeover state. -/
def stepAlg (cfg : StepCfg) (s : AlgState) : AlgState × List SynthEvent :=
  let r := stepBlock cfg s.tracker
  ({ tracker := r.1, ui := s.ui }, r.2)

/-- midiMessage on the full algorithm state: the handler only calls into
the voice engine and writes no algorithm field, so the state is returned
unchanged alongside the engine calls. -/
def midiMessageS (midiChParam : ℤ) (s : AlgState) (b0 b1 b2 : ℕ) :
    AlgState × List SynthEvent :=
  (s, midiMessage midiChParam b0 b1 b2)

/-- States reachable from construction by any sequence of audio-block and
MIDI-message calls. -/
inductive Reachable : AlgState → Prop where
  | init (sr : ℚ) : Reachable (initAlgState sr)
  | step (cfg : StepCfg) {s : AlgState} :
      Reachable s → Reachable (stepAlg cfg s).1
  | midi (midiChParam : ℤ) (b0 b1 b2 : ℕ) {s : AlgState} :
      Reachable s → Reachable (midiMessageS midiChParam s b0 b1 b2).1

/-- A block configuration whose only patched input is the gate CV, fed
from the given voltage list (used to drive the Schmitt trigger through a
concrete voltage sequence). -/
def gateCfgOnly (vs : List ℚ) : StepCfg where
  numFramesBy4 := 0
  sampleRate := 48000
  targetCutoff := 1000
  targetResonance := 50
  targetDecay := 300
  pitchCV := none
  gateCV := some (fun i => vs.getD i 0)
  accentCV := none

/-- The logical-gate sequence produced by running the per-sample loop
body over a list of gate voltages, collecting prevGate after each
sample. -/
def gateTrace (vs : List ℚ) (st : TrackerState) : List Bool :=
  ((List.range vs.length).foldl
    (fun (acc : TrackerState × List Bool) i =>
      let r := stepSample (gateCfgOnly vs) i acc.1
      (r.1, acc.2 ++ [r.1.prevGate]))
    (st, [])).2

/-- A tracker state in which the gate is already high with the note-60 CV
note sounding and the smoothed values settled at their targets. -/
def stHeld : TrackerState where
  prevGate := true
  cvNoteActive := true
  currentCVNote := 60
  smoothCutoff := 1000
  smoothResonance := 50
  smoothDecay := 300
  lastSampleRate := 48000

/-- Block inputs with gate held at 5 V and pitch CV at 0.5 V, accent
unpatched. -/
def cfgPitchStep : StepCfg where
  numFramesBy4 := 1
  sampleRate := 48000
  targetCutoff := 1000
  targetResonance := 50
  targetDecay := 300
  pitchCV := some (fun _ => 1/2)
  gateCV := some (fun _ => 5)
  accentCV := none

/-- Block inputs with gate held at 5 V, pitch CV at 0.5 V and accent CV
at 5 V. -/
def cfgAccentFull : StepCfg where
  numFramesBy4 := 1
  sampleRate := 48000
  targetCutoff := 1000
  targetResonance := 50
  targetDecay := 300
  pitchCV := some (fun _ => 1/2)
  gateCV := some (fun _ => 5)
  accentCV := some (fun _ => 5)

/-- Block inputs with all three CV inputs unpatched and one 4-sample
frame group. -/
def cfgUnpatched : StepCfg where
  numFramesBy4 := 1
  sampleRate := 48000
  targetCutoff := 1000
  targetResonance := 50
  targetDecay := 300
  pitchCV := none
  gateCV := none
  accentCV := none

/-- An algorithm state whose smoothed cutoff (0) is away from its target
(1000); gate low, no CV note. -/
def stSmoothingAway : AlgState where
  tracker :=
    { prevGate := false
      cvNoteActive := false
      currentCVNote := 60
      smoothCutoff := 0
      smoothResonance := 50
      smoothDecay := 300
      lastSampleRate := 48000 }
  ui := initSoftTakeover

/-- A trivial instantiation of the abstract powf parameter, usable in
closed statements that never reach the exponential branch. -/
def qpowZero : ℚ → ℚ → ℚ := fun _ _ => 0

/-- A takeover state whose pot 0 was last seen at 0.5 while its normal
target sits at 0.52: physical position and logical target differ by
exactly the takeover epsilon 0.02. -/
def stGapExact : SoftTakeoverState :=
  { initSoftTakeover with
      lastPotPos := fun _ => 1/2
      normalTarget := Function.update (fun _ => 1/2) 0 (13/25) }

/-- A UI tick in which pot 0 moved to 0.6 (a +0.1 motion from 0.5) with
no modifier button pressed. -/
def dataMoveTo6 : UiData where
  potMoved := fun i => i = 0
  buttonPressed := fun _ => false
  pots := fun _ => 3/5
  encoders := fun _ => 0

/-- A pot configuration with linear 0..100 scaling on both the normal and
the alt parameter (the EnvMod/Waveform-style mapping of potConfigs). -/
def cfgLinearPot : PotConfig where
  normalParam := 4
  altParam := 5
  normalScaling := { sMin := 0, sMax := 100, exponential := false, expBase := 0 }
  altScaling := { sMin := 0, sMax := 100, exponential := false, expBase := 0 }

/-- A takeover state out of sync on pot 0: physical position last seen at
0.3 while the normal target sits at 0.8. -/
def stOutOfSync : SoftTakeoverState :=
  { initSoftTakeover with
      lastPotPos := fun _ => 3/10
      normalTarget := Function.update (fun _ => 1/2) 0 (4/5) }

/-- A UI tick in which pot 0 moved to 0.35 (a +0.05 motion from 0.3) with
no modifier button pressed. -/
def dataMoveTo35 : UiData where
  potMoved := fun i => i = 0
  buttonPressed := fun _ => false
  pots := fun _ => 7/20
  encoders := fun _ => 0

/-- A takeover state in sync on pot 0 at position 0.5. -/
def stInSync : SoftTakeoverState :=
  { initSoftTakeover with
      lastPotPos := fun _ => 1/2
      normalTarget := fun _ => 1/2 }

/-- A UI tick in which pot 0 moved to 0.505 with no modifier button. -/
def dataMoveSmall : UiData where
  potMoved := fun i => i = 0
  buttonPressed := fun _ => false
  pots := fun _ => 101/200
  encoders := fun _ => 0

/-- C8: for every pitch CV voltage cv, the discrete pitch mapping of
compat.h returns clamp(round(60 + cv·12), 0, 127): clamping the float
before rounding, as the code does, agrees with rounding before clamping,
as the spec writes it; CV 0.0 maps to note 60, 1.0 to 72, −0.5 to 54,
and every result lies in [0,127]. -/

theorem C8_pitch_quantization :
    (∀ cv : ℚ, cvToMidiNote cv = specNoteClampRound cv) ∧
    cvToMidiNote 0 = 60 ∧ cvToMidiNote 1 = 72 ∧ cvToMidiNote (-(1/2)) = 54 ∧
    (∀ cv : ℚ, 0 ≤ cvToMidiNote cv ∧ cvToMidiNote cv ≤ 127) := by
  have main : ∀ cv : ℚ, cvToMidiNote cv = specNoteClampRound cv := by
    intro cv
    unfold cvToMidiNote specNoteClampRound
    dsimp only
    rw [round_eq]
    set x : ℚ := 60 + cv * 12 with hx
    rcases lt_or_le x 0 with h0 | h0
    · rw [if_pos h0, if_neg (by norm_num)]
      have hfl : ⌊x + 1/2⌋ ≤ 0 := by
        have h2 : ⌊x + 1/2⌋ ≤ ⌊(1/2 : ℚ)⌋ := Int.floor_le_floor (by linarith)
        have h3 : ⌊(1/2 : ℚ)⌋ = 0 := by norm_num
        omega
      rw [max_eq_left hfl, min_eq_right (by norm_num)]
      norm_num
    · rw [if_neg (not_lt.mpr h0)]
      rcases le_or_lt x 127 with h1 | h1
      · rw [if_neg (not_lt.mpr h1)]
        have hge : 0 ≤ ⌊x + 1/2⌋ := by
          have h2 : ⌊(0 : ℚ)⌋ ≤ ⌊x + 1/2⌋ := Int.floor_le_floor (by linarith)
          have h3 : ⌊(0 : ℚ)⌋ = 0 := by norm_num
          omega
        have hle : ⌊x + 1/2⌋ ≤ 127 := by
          have h2 : ⌊x + 1/2⌋ ≤ ⌊(255/2 : ℚ)⌋ := Int.floor_le_floor (by linarith)
          have h3 : ⌊(255/2 : ℚ)⌋ = 127 := by norm_num
          omega
        rw [max_eq_right hge, min_eq_right hle]
      · rw [if_pos h1]
        have hge : (127 : ℤ) ≤ ⌊x + 1/2⌋ := by
          have h2 : ⌊(255/2 : ℚ)⌋ ≤ ⌊x + 1/2⌋ := Int.floor_le_floor (by linarith)
          have h3 : ⌊(255/2 : ℚ)⌋ = 127 := by norm_num
          omega
        rw [max_eq_right (by omega), min_eq_left hge]
        norm_num
  refine ⟨main, by norm_num [cvToMidiNote], by norm_num [cvToMidiNote],
    by norm_num [cvToMidiNote], ?_⟩
  intro cv
  rw [main cv]
  unfold specNoteClampRound
  constructor
  · exact le_min (by norm_num) (le_max_left _ _)
  · exact min_le_left _ _


/-- The zero-length block configuration: unpatched CVs and numFramesBy4
set to 0. -/
def cfgZeroFrames : StepCfg := { cfgUnpatched with numFramesBy4 := 0 }

/-- The Note Tracker invariant: a CV note can be active only while the
logical gate is high. -/
def noteInv (st : TrackerState) : Prop :=
  st.cvNoteActive = true → st.prevGate = true

/-- One per-sample step preserves the note-tracking invariant. -/
theorem stepSample_noteInv (cfg : StepCfg) (i : ℕ) (st : TrackerState)
    (h : noteInv st) : noteInv (stepSample cfg i st).1 := by
  unfold noteInv at h ⊢
  rcases hg : cfg.gateCV with _ | g
  · intro hact
    simp only [stepSample, hg] at hact ⊢
    exact h hact
  · rcases hb : st.prevGate
    · by_cases hgv : (3/2 : ℚ) < g i
      · simp [stepSample, hg, hb, hgv]
      · simp [stepSample, hg, hb, hgv]
        rcases hc : st.cvNoteActive
        · rfl
        · exact absurd (h hc) (by simp [hb])
    · by_cases hgv : (1 : ℚ) ≤ g i
      · simp [stepSample, hg, hb, hgv]
      · simp [stepSample, hg, hb, hgv]

/-- The per-block sample loop preserves the note-tracking invariant. -/
theorem foldl_noteInv (cfg : StepCfg) :
    ∀ (l : List ℕ) (acc : TrackerState × List SynthEvent), noteInv acc.1 →
      noteInv ((l.foldl
        (fun acc i =>
          let r := stepSample cfg i acc.1
          (r.1, acc.2 ++ r.2)) acc).1) := by
  intro l
  induction l with
  | nil => intro acc h; exact h
  | cons x xs ih =>
      intro acc h
      simp only [List.foldl_cons]
      exact ih _ (stepSample_noteInv cfg x acc.1 h)

/-- A whole step() call preserves the note-tracking invariant. -/
theorem stepBlock_noteInv (cfg : StepCfg) (st : TrackerState) (h : noteInv st) :
    noteInv (stepBlock cfg st).1 := by
  unfold stepBlock
  apply foldl_noteInv
  by_cases hsr : cfg.sampleRate = st.lastSampleRate <;>
    simpa [hsr, noteInv] using h

/-- With the gate CV unpatched, a per-sample step leaves the gate/note
state untouched and issues no note event. -/
theorem stepSample_gate_none (cfg : StepCfg) (i : ℕ) (st : TrackerState)
    (hg : cfg.gateCV = none) :
    (stepSample cfg i st).1.prevGate = st.prevGate ∧
    (stepSample cfg i st).1.cvNoteActive = st.cvNoteActive ∧
    (stepSample cfg i st).1.currentCVNote = st.currentCVNote ∧
    (stepSample cfg i st).2.filter isNoteEvent = [] := by
  by_cases hi : i % 8 = 0 <;>
    simp [stepSample, hg, hi, isNoteEvent, List.filter]

/-- With the gate CV unpatched, the sample loop leaves the gate/note
state untouched and appends no note event. -/
theorem foldl_gate_none (cfg : StepCfg) (hg : cfg.gateCV = none) :
    ∀ (l : List ℕ) (acc : TrackerState × List SynthEvent),
      ((l.foldl
        (fun acc i =>
          let r := stepSample cfg i acc.1
          (r.1, acc.2 ++ r.2)) acc).1.prevGate = acc.1.prevGate ∧
       (l.foldl
        (fun acc i =>
          let r := stepSample cfg i acc.1
          (r.1, acc.2 ++ r.2)) acc).1.cvNoteActive = acc.1.cvNoteActive ∧
       (l.foldl
        (fun acc i =>
          let r := stepSample cfg i acc.1
          (r.1, acc.2 ++ r.2)) acc).1.currentCVNote = acc.1.currentCVNote ∧
       (l.foldl
        (fun acc i =>
          let r := stepSample cfg i acc.1
          (r.1, acc.2 ++ r.2)) acc).2.filter isNoteEvent = acc.2.filter isNoteEvent) := by
  intro l
  induction l with
  | nil => intro acc; exact ⟨rfl, rfl, rfl, rfl⟩
  | cons x xs ih =>
      intro acc
      simp only [List.foldl_cons]
      obtain ⟨h1, h2, h3, h4⟩ := ih (stepSample cfg x acc.1 |>.1, acc.2 ++ (stepSample cfg x acc.1).2)
      obtain ⟨g1, g2, g3, g4⟩ := stepSample_gate_none cfg x acc.1 hg
      refine ⟨?_, ?_, ?_, ?_⟩
      · rw [h1]; exact g1
      · rw [h2]; exact g2
      · rw [h3]; exact g3
      · rw [h4, List.filter_append, g4, List.append_nil]

/-- Characterization of processPot on a tick where the pot moved: the
active target becomes the clamped updated target, snapped to the physical
position under the strict takeover condition; the reported value is the
scaling of that target; the change flag is set; the physical position is
recorded. -/
theorem processPot_moved_char (qpow : ℚ → ℚ → ℚ) (st : SoftTakeoverState) (i : Fin 3)
    (data : UiData) (cfg : PotConfig) (dtf : ℤ)
    (hm : data.potMoved i = true) :
    ((if data.buttonPressed i
        then (processPot qpow st i data cfg dtf).1.altTarget i
        else (processPot qpow st i data cfg dtf).1.normalTarget i)
      = (if (|data.pots i - clamp01 ((if data.buttonPressed i then st.altTarget i
              else st.normalTarget i) + (data.pots i - st.lastPotPos i))| < 1/50 ∨
            data.pots i ≤ 1/100 ∨ data.pots i ≥ 99/100)
         then data.pots i
         else clamp01 ((if data.buttonPressed i then st.altTarget i
              else st.normalTarget i) + (data.pots i - st.lastPotPos i)))) ∧
    (processPot qpow st i data cfg dtf).2.paramValue
      = scalingToValue qpow
          (if data.buttonPressed i then cfg.altScaling else cfg.normalScaling)
          (if (|data.pots i - clamp01 ((if data.buttonPressed i then st.altTarget i
                else st.normalTarget i) + (data.pots i - st.lastPotPos i))| < 1/50 ∨
              data.pots i ≤ 1/100 ∨ data.pots i ≥ 99/100)
           then data.pots i
           else clamp01 ((if data.buttonPressed i then st.altTarget i
                else st.normalTarget i) + (data.pots i - st.lastPotPos i))) ∧
    (processPot qpow st i data cfg dtf).2.changed = true ∧
    (processPot qpow st i data cfg dtf).1.lastPotPos i = data.pots i := by
  unfold processPot
  rw [if_pos hm]
  rcases hb : data.buttonPressed i <;>
    simp [hb, Function.update_same, Bool.or_eq_true, decide_eq_true_eq, if_true, if_false,
      or_assoc]

/-- C1: the claim asserts that with the gate already high, pitch CV
patched and the quantized note (66 at 0.5 V) different from the note
previously sounded (60), exactly one new note-on is issued.  At this
concrete input the code issues zero note-ons: it only pushes the
continuous oscillator frequency derived from the pitch CV. -/
theorem C1_no_retrigger_counterexample :
    stHeld.prevGate = true ∧ (1 : ℚ) ≤ 5 ∧
    cfgPitchStep.pitchCV = some (fun _ => 1/2) ∧
    cvToMidiNote (1/2) = 66 ∧ stHeld.currentCVNote = 60 ∧ (66 : ℤ) ≠ 60 ∧
    countNoteOns (stepSample cfgPitchStep 1 stHeld).2 = 0 ∧
    ¬ countNoteOns (stepSample cfgPitchStep 1 stHeld).2 = 1 ∧
    (stepSample cfgPitchStep 1 stHeld).2
      = [SynthEvent.setOscFreqFromCV (1/2), SynthEvent.getSample] := by
  refine ⟨rfl, by norm_num, rfl, by norm_num [cvToMidiNote], rfl, by norm_num, ?_, ?_, ?_⟩ <;>
    norm_num [stepSample, cfgPitchStep, stHeld, countNoteOns, List.filter]

/-- C1 amended: on every sample where the gate CV is patched and the gate
stays high (previous gate high, gate CV at or above 1.0 V) with pitch CV
patched, the code issues no note-on and no note-off; it pushes the
oscillator frequency derived from the pitch CV to the voice engine
(the engine computes cvToFreq of the recorded CV). -/
theorem C1_continuous_pitch :
    ∀ (cfg : StepCfg) (p g : ℕ → ℚ) (i : ℕ) (st : TrackerState),
      cfg.pitchCV = some p → cfg.gateCV = some g →
      st.prevGate = true → 1 ≤ g i →
      countNoteOns (stepSample cfg i st).2 = 0 ∧
      SynthEvent.allNotesOff ∉ (stepSample cfg i st).2 ∧
      SynthEvent.setOscFreqFromCV (p i) ∈ (stepSample cfg i st).2 := by
  intro cfg p g i st hp hg hprev hgate
  rcases hacc : cfg.accentCV with _ | a <;>
  by_cases hi : i % 8 = 0 <;>
    simp [stepSample, hp, hg, hprev, hgate, hacc, hi, countNoteOns, List.filter]

/-- Witness for C1 amended at the concrete legato input (gate 5 V held,
pitch CV 0.5 V). -/
theorem C1_continuous_pitch_witness :
    countNoteOns (stepSample cfgPitchStep 1 stHeld).2 = 0 ∧
    SynthEvent.allNotesOff ∉ (stepSample cfgPitchStep 1 stHeld).2 ∧
    SynthEvent.setOscFreqFromCV ((fun _ => (1:ℚ)/2) 1) ∈ (stepSample cfgPitchStep 1 stHeld).2 :=
  C1_continuous_pitch cfgPitchStep (fun _ => 1/2) (fun _ => 5) 1 stHeld rfl rfl rfl
    (by norm_num)

/-- C2: the gate detector is a Schmitt trigger: from a low previous gate
the new gate is high exactly when the gate CV strictly exceeds 1.5 V, and
from a high previous gate it stays high exactly when the CV is at least
1.0 V; the voltage sequence [0.0, 1.4, 1.6, 1.2, 0.9] from the initial
low state yields the logical gate sequence
[low, low, high, high, low]. -/
theorem C2_schmitt_trigger :
    (∀ (cfg : StepCfg) (g : ℕ → ℚ) (i : ℕ) (st : TrackerState),
        cfg.gateCV = some g →
        (st.prevGate = false →
          ((stepSample cfg i st).1.prevGate = true ↔ 3/2 < g i)) ∧
        (st.prevGate = true →
          ((stepSample cfg i st).1.prevGate = true ↔ 1 ≤ g i))) ∧
    gateTrace [0, 7/5, 8/5, 6/5, 9/10] (initAlgState 48000).tracker
      = [false, false, true, true, false] := by
  constructor
  · intro cfg g i st hg
    constructor
    · intro hp
      simp [stepSample, hg, hp]
    · intro hp
      simp [stepSample, hg, hp]
  · norm_num [gateTrace, gateCfgOnly, stepSample, initAlgState, List.range_succ]

/-- Witness for C2 at a concrete sample: from the low initial state a
1.6 V gate CV drives the gate high because 1.6 exceeds 1.5. -/
theorem C2_schmitt_trigger_witness :
    ((stepSample (gateCfgOnly [8/5]) 0 (initAlgState 48000).tracker).1.prevGate = true
      ↔ (3/2 : ℚ) < 8/5) :=
  (C2_schmitt_trigger.1 (gateCfgOnly [8/5]) (fun i => ([(8:ℚ)/5].getD i 0)) 0
    (initAlgState 48000).tracker rfl).1 rfl

/-- C3: the claim asserts that a physical position and target differing
by exactly 0.02 snap together on the next tick with any nonzero motion.
At this concrete input (gap exactly 0.02, motion +0.1) the code does not
snap: the takeover test is strictly less than 0.02 and the equal motion
of position and target keeps the gap at exactly 0.02, so the target
becomes 0.62, not the physical position 0.6. -/
theorem C3_exact_gap_counterexample :
    |stGapExact.lastPotPos 0 - stGapExact.normalTarget 0| = 1/50 ∧
    dataMoveTo6.pots 0 - stGapExact.lastPotPos 0 = 1/10 ∧
    ((1 : ℚ)/10 ≠ 0) ∧
    dataMoveTo6.potMoved 0 = true ∧
    dataMoveTo6.buttonPressed 0 = false ∧
    (processPot qpowZero stGapExact 0 dataMoveTo6 cfgLinearPot 48000).1.normalTarget 0
      = 31/50 ∧
    (processPot qpowZero stGapExact 0 dataMoveTo6 cfgLinearPot 48000).1.normalTarget 0
      ≠ dataMoveTo6.pots 0 := by
  refine ⟨?_, ?_, by norm_num, rfl, rfl, ?_, ?_⟩ <;>
    norm_num [processPot, stGapExact, dataMoveTo6, cfgLinearPot, initSoftTakeover,
      clamp01, scalingToValue, intTrunc, qpowZero, abs_of_pos]

/-- C3 amended: on a tick where the pot moved, the active target ends up
equal to the physical position exactly when the physical position is
strictly within 0.02 of the clamped updated target, or the physical
position is at or below 0.01 or at or above 0.99; a gap of exactly 0.02
does not snap. -/
theorem C3_takeover_snap :
    ∀ (qpow : ℚ → ℚ → ℚ) (st : SoftTakeoverState) (i : Fin 3) (data : UiData)
      (cfg : PotConfig) (dtf : ℤ),
      data.potMoved i = true →
      (let potPos := data.pots i
       let t3 := clamp01 ((if data.buttonPressed i then st.altTarget i
                    else st.normalTarget i) + (potPos - st.lastPotPos i))
       ((if data.buttonPressed i
           then (processPot qpow st i data cfg dtf).1.altTarget i
           else (processPot qpow st i data cfg dtf).1.normalTarget i) = potPos
         ↔ (|potPos - t3| < 1/50 ∨ potPos ≤ 1/100 ∨ potPos ≥ 99/100))) := by
  intro qpow st i data cfg dtf hm
  dsimp only
  obtain ⟨h1, _, _, _⟩ := processPot_moved_char qpow st i data cfg dtf hm
  rw [h1]
  by_cases hc : (|data.pots i - clamp01 ((if data.buttonPressed i then st.altTarget i
        else st.normalTarget i) + (data.pots i - st.lastPotPos i))| < 1/50 ∨
      data.pots i ≤ 1/100 ∨ data.pots i ≥ 99/100)
  · rw [if_pos hc]
    exact ⟨fun _ => hc, fun _ => rfl⟩
  · rw [if_neg hc]
    constructor
    · intro he
      exfalso
      apply hc
      left
      rw [he, sub_self, abs_zero]
      norm_num
    · intro h
      exact absurd h hc

/-- Witness for C3 amended at a concrete in-sync motion (position 0.505,
target updated to 0.505, gap 0 within epsilon, so the snap holds). -/
theorem C3_takeover_snap_witness :
    (if dataMoveSmall.buttonPressed 0
       then (processPot qpowZero stInSync 0 dataMoveSmall cfgLinearPot 48000).1.altTarget 0
       else (processPot qpowZero stInSync 0 dataMoveSmall cfgLinearPot 48000).1.normalTarget 0)
      = dataMoveSmall.pots 0
     ↔ (|dataMoveSmall.pots 0 - clamp01 ((if dataMoveSmall.buttonPressed 0
            then stInSync.altTarget 0 else stInSync.normalTarget 0)
            + (dataMoveSmall.pots 0 - stInSync.lastPotPos 0))| < 1/50 ∨
        dataMoveSmall.pots 0 ≤ 1/100 ∨ dataMoveSmall.pots 0 ≥ 99/100) :=
  C3_takeover_snap qpowZero stInSync 0 dataMoveSmall cfgLinearPot 48000 rfl

/-- C4: the claim asserts the derived accent level itself is forwarded as
the accent-gain parameter.  At this concrete input (gate high, accent CV
at 5 V, accent level 1) the code forwards 0.5 — half the accent level —
and never forwards 1. -/
theorem C4_accent_counterexample :
    stHeld.prevGate = true ∧ (1 : ℚ) ≤ 5 ∧
    cfgAccentFull.accentCV = some (fun _ => 5) ∧
    accentLevel 5 = 1 ∧
    (stepSample cfgAccentFull 1 stHeld).2
      = [SynthEvent.setOscFreqFromCV (1/2), SynthEvent.setAccentGain (1/2),
         SynthEvent.getSample] ∧
    SynthEvent.setAccentGain 1 ∉ (stepSample cfgAccentFull 1 stHeld).2 := by
  refine ⟨rfl, by norm_num, rfl, by norm_num [accentLevel], ?_, ?_⟩
  · norm_num [stepSample, cfgAccentFull, stHeld, accentLevel]
  · norm_num [stepSample, cfgAccentFull, stHeld, accentLevel]
    exact ⟨by simp, by simp⟩

/-- C4 amended: on every sample with the gate logically high and the
accent CV patched, the code forwards 0.5 times the accent level to the
engine as accent gain, where the accent level is (accentCV − 2.5)/2.5
clamped to [0,1]: zero at or below 2.5 V, one at 5.0 V, linear in
between, and monotonically non-decreasing. -/
theorem C4_accent_mapping :
    (∀ (cfg : StepCfg) (a g : ℕ → ℚ) (i : ℕ) (st : TrackerState),
      cfg.accentCV = some a → cfg.gateCV = some g →
      (if st.prevGate then 1 ≤ g i else 3/2 < g i) →
      SynthEvent.setAccentGain (accentLevel (a i) * (1/2)) ∈ (stepSample cfg i st).2) ∧
    (∀ x : ℚ, x ≤ 5/2 → accentLevel x = 0) ∧
    accentLevel 5 = 1 ∧
    (∀ x : ℚ, 5/2 ≤ x → x ≤ 5 → accentLevel x = (x - 5/2) / (5/2)) ∧
    (∀ x y : ℚ, x ≤ y → accentLevel x ≤ accentLevel y) ∧
    (∀ x : ℚ, 0 ≤ accentLevel x ∧ accentLevel x ≤ 1) := by
  refine ⟨?_, ?_, by norm_num [accentLevel], ?_, ?_, ?_⟩
  · intro cfg a g i st hacc hg hgate
    rcases hb : st.prevGate <;> rw [hb] at hgate <;> simp at hgate <;>
    rcases hpi : cfg.pitchCV with _ | p <;>
    by_cases hi : i % 8 = 0 <;>
      simp [stepSample, hacc, hg, hb, hgate, hi, hpi]
  · intro x hx
    unfold accentLevel
    dsimp only
    have h0 : (x - 5/2) / (5/2) ≤ 0 := by
      apply div_nonpos_of_nonpos_of_nonneg <;> linarith
    rcases lt_or_eq_of_le h0 with h | h
    · rw [if_pos h]; norm_num
    · rw [h]; norm_num
  · intro x hx1 hx2
    unfold accentLevel
    dsimp only
    have h0 : 0 ≤ (x - 5/2) / (5/2) := div_nonneg (by linarith) (by norm_num)
    have h1 : (x - 5/2) / (5/2) ≤ 1 := by
      rw [div_le_one (by norm_num)]; linarith
    rw [if_neg (not_lt.mpr h0)]
    rw [if_neg (not_lt.mpr h1)]
  · intro x y hxy
    unfold accentLevel
    dsimp only
    have hmono : (x - 5/2) / (5/2) ≤ (y - 5/2) / (5/2) := by
      apply div_le_div_of_nonneg_right ?_ (by norm_num)
      linarith
    split_ifs <;> first | rfl | linarith
  · intro x
    unfold accentLevel
    dsimp only
    split_ifs with h1 h2 h3
    · exact ⟨by norm_num, by norm_num⟩
    · exact ⟨by norm_num, by norm_num⟩
    · exact ⟨by norm_num, by norm_num⟩
    · exact ⟨not_lt.mp h1, not_lt.mp h3⟩

/-- Witness for C4 amended at accent CV 5 V under a held 5 V gate. -/
theorem C4_accent_mapping_witness :
    SynthEvent.setAccentGain (accentLevel ((fun _ => (5:ℚ)) 1) * (1/2))
      ∈ (stepSample cfgAccentFull 1 stHeld).2 :=
  C4_accent_mapping.1 cfgAccentFull (fun _ => 5) (fun _ => 5) 1 stHeld rfl rfl
    (by norm_num [stHeld])

/-- C5: on a tick where the pot moved while out of sync (no snap
condition holds for the updated target), the active target becomes the
clamped sum of old target and motion delta, the reported value is the
scaling of that updated target — not of the raw physical position — and
the change flag is set; concretely, from target 0.8 and position 0.3, a
+0.05 motion yields target 0.85 and reported value 85 under the linear
0..100 scaling, not 35. -/
theorem C5_target_decoupling :
    (∀ (qpow : ℚ → ℚ → ℚ) (st : SoftTakeoverState) (i : Fin 3) (data : UiData)
       (cfg : PotConfig) (dtf : ℤ),
      data.potMoved i = true →
      (let potPos := data.pots i
       let t3 := clamp01 ((if data.buttonPressed i then st.altTarget i
                    else st.normalTarget i) + (potPos - st.lastPotPos i))
       ¬(|potPos - t3| < 1/50 ∨ potPos ≤ 1/100 ∨ potPos ≥ 99/100) →
       ((if data.buttonPressed i
           then (processPot qpow st i data cfg dtf).1.altTarget i
           else (processPot qpow st i data cfg dtf).1.normalTarget i) = t3 ∧
        (processPot qpow st i data cfg dtf).2.paramValue
          = scalingToValue qpow
              (if data.buttonPressed i then cfg.altScaling else cfg.normalScaling) t3 ∧
        (processPot qpow st i data cfg dtf).2.changed = true))) ∧
    (∀ qpow : ℚ → ℚ → ℚ,
      (processPot qpow stOutOfSync 0 dataMoveTo35 cfgLinearPot 48000).1.normalTarget 0
        = 17/20 ∧
      (processPot qpow stOutOfSync 0 dataMoveTo35 cfgLinearPot 48000).2.paramValue
        = scalingToValue qpow cfgLinearPot.normalScaling (17/20) ∧
      scalingToValue qpow cfgLinearPot.normalScaling (17/20) = 85 ∧
      scalingToValue qpow cfgLinearPot.normalScaling (7/20) = 35 ∧
      ((85 : ℚ) ≠ 35)) := by
  constructor
  · intro qpow st i data cfg dtf hm
    dsimp only
    intro hns
    obtain ⟨h1, h2, h3, _⟩ := processPot_moved_char qpow st i data cfg dtf hm
    rw [if_neg hns] at h1 h2
    exact ⟨h1, h2, h3⟩
  · intro qpow
    refine ⟨?_, ?_, ?_, ?_, by norm_num⟩ <;>
      norm_num [processPot, stOutOfSync, dataMoveTo35, cfgLinearPot, initSoftTakeover,
        clamp01, scalingToValue, intTrunc, abs_of_pos]

/-- Witness for C5 at the out-of-sync concrete input (target 0.8,
position 0.3, motion +0.05). -/
theorem C5_target_decoupling_witness :
    ((if dataMoveTo35.buttonPressed 0
        then (processPot qpowZero stOutOfSync 0 dataMoveTo35 cfgLinearPot 48000).1.altTarget 0
        else (processPot qpowZero stOutOfSync 0 dataMoveTo35 cfgLinearPot 48000).1.normalTarget 0)
       = clamp01 ((if dataMoveTo35.buttonPressed 0 then stOutOfSync.altTarget 0
            else stOutOfSync.normalTarget 0)
            + (dataMoveTo35.pots 0 - stOutOfSync.lastPotPos 0)) ∧
     (processPot qpowZero stOutOfSync 0 dataMoveTo35 cfgLinearPot 48000).2.paramValue
       = scalingToValue qpowZero
           (if dataMoveTo35.buttonPressed 0 then cfgLinearPot.altScaling
            else cfgLinearPot.normalScaling)
           (clamp01 ((if dataMoveTo35.buttonPressed 0 then stOutOfSync.altTarget 0
            else stOutOfSync.normalTarget 0)
            + (dataMoveTo35.pots 0 - stOutOfSync.lastPotPos 0))) ∧
     (processPot qpowZero stOutOfSync 0 dataMoveTo35 cfgLinearPot 48000).2.changed = true) ∧
    (processPot qpowZero stOutOfSync 0 dataMoveTo35 cfgLinearPot 48000).2.paramValue = 85 :=
  ⟨C5_target_decoupling.1 qpowZero stOutOfSync 0 dataMoveTo35 cfgLinearPot 48000 rfl
     (by norm_num [stOutOfSync, dataMoveTo35, initSoftTakeover, clamp01, abs_of_pos]),
   ((C5_target_decoupling.2 qpowZero).2.1).trans (C5_target_decoupling.2 qpowZero).2.2.1⟩

/-- C6: on every sample where the gate CV is patched and the logical gate
falls (previous gate high, gate CV below 1.0 V), the only note event
issued is a single unconditional all-notes-off — never a per-note
note-off — and cvNoteActive is cleared. -/
theorem C6_gate_release :
    ∀ (cfg : StepCfg) (g : ℕ → ℚ) (i : ℕ) (st : TrackerState),
      cfg.gateCV = some g → st.prevGate = true → g i < 1 →
      ((stepSample cfg i st).2.filter isNoteEvent = [SynthEvent.allNotesOff]) ∧
      (stepSample cfg i st).1.cvNoteActive = false := by
  intro cfg g i st hg hprev hgate
  have hn : ¬ (1 : ℚ) ≤ g i := not_le.mpr hgate
  rcases hacc : cfg.accentCV with _ | a <;>
  rcases hpi : cfg.pitchCV with _ | p <;>
  by_cases hi : i % 8 = 0 <;>
    simp [stepSample, hg, hprev, hn, hacc, hpi, hi, isNoteEvent, List.filter]

/-- Witness for C6 with the gate dropping to 0.9 V from the held
state. -/
theorem C6_gate_release_witness :
    ((stepSample (gateCfgOnly [9/10]) 0 stHeld).2.filter isNoteEvent
      = [SynthEvent.allNotesOff]) ∧
    (stepSample (gateCfgOnly [9/10]) 0 stHeld).1.cvNoteActive = false :=
  C6_gate_release (gateCfgOnly [9/10]) (fun i => ([(9:ℚ)/10].getD i 0)) 0 stHeld rfl rfl
    (by norm_num)

/-- C7: in every state reachable from construction by audio-block and
MIDI-message calls, cvNoteActive implies prevGate (a CV note is active
only while the logical gate is high, and only the CV gate path ever sets
it), and processing any MIDI message leaves the whole algorithm state —
in particular prevGate and cvNoteActive — unchanged. -/
theorem C7_invariant :
    (∀ s : AlgState, Reachable s →
      (s.tracker.cvNoteActive = true → s.tracker.prevGate = true)) ∧
    (∀ (ch : ℤ) (s : AlgState) (b0 b1 b2 : ℕ),
      (midiMessageS ch s b0 b1 b2).1 = s) := by
  constructor
  · intro s hr
    induction hr with
    | init sr => intro h; exact absurd h (by simp [initAlgState])
    | step cfg hr ih => exact stepBlock_noteInv cfg _ ih
    | midi ch b0 b1 b2 hr ih => exact ih
  · intro ch s b0 b1 b2
    rfl

/-- Witness for C7 at the freshly constructed state and a MIDI note-on
message. -/
theorem C7_invariant_witness :
    ((initAlgState 48000).tracker.cvNoteActive = true →
      (initAlgState 48000).tracker.prevGate = true) ∧
    (midiMessageS 0 (initAlgState 48000) 0x90 60 100).1 = initAlgState 48000 :=
  ⟨C7_invariant.1 (initAlgState 48000) (Reachable.init 48000),
   C7_invariant.2 0 (initAlgState 48000) 0x90 60 100⟩

/-- C9: the claim also covers unpatched (but nonzero-length) blocks; at
this concrete input all three CVs are unpatched, the parameter set is
unchanged, no note event is issued, yet the smoothed cutoff moves from 0
toward its 1000 target, so the tracked state is not left unchanged. -/
theorem C9_unpatched_counterexample :
    cfgUnpatched.pitchCV = none ∧ cfgUnpatched.gateCV = none ∧
    cfgUnpatched.accentCV = none ∧ cfgUnpatched.numFramesBy4 = 1 ∧
    cfgUnpatched.sampleRate = stSmoothingAway.tracker.lastSampleRate ∧
    stSmoothingAway.tracker.smoothCutoff = 0 ∧
    (stepAlg cfgUnpatched stSmoothingAway).1.tracker.smoothCutoff ≠ 0 := by
  refine ⟨rfl, rfl, rfl, rfl, rfl, rfl, ?_⟩
  norm_num [stepAlg, stepBlock, stepSample, cfgUnpatched, stSmoothingAway, List.range_succ]

/-- C9 amended: a zero-length block with an unchanged sample rate issues
no engine call at all and leaves the whole algorithm state unchanged,
for any number of invocations; an unpatched-gate block of any length
issues no note event and leaves the gate/note state and the
soft-takeover state unchanged (the smoothed values may still move toward
their targets). -/
theorem C9_zero_length :
    (∀ (cfg : StepCfg) (s : AlgState),
      cfg.numFramesBy4 = 0 → cfg.sampleRate = s.tracker.lastSampleRate →
      stepAlg cfg s = (s, [])) ∧
    (∀ (n : ℕ) (cfg : StepCfg) (s : AlgState),
      cfg.numFramesBy4 = 0 → cfg.sampleRate = s.tracker.lastSampleRate →
      (fun s => (stepAlg cfg s).1)^[n] s = s) ∧
    (∀ (cfg : StepCfg) (s : AlgState),
      cfg.gateCV = none →
      ((stepAlg cfg s).2.filter isNoteEvent = [] ∧
       (stepAlg cfg s).1.tracker.prevGate = s.tracker.prevGate ∧
       (stepAlg cfg s).1.tracker.cvNoteActive = s.tracker.cvNoteActive ∧
       (stepAlg cfg s).1.tracker.currentCVNote = s.tracker.currentCVNote ∧
       (stepAlg cfg s).1.ui = s.ui)) := by
  have part1 : ∀ (cfg : StepCfg) (s : AlgState),
      cfg.numFramesBy4 = 0 → cfg.sampleRate = s.tracker.lastSampleRate →
      stepAlg cfg s = (s, []) := by
    intro cfg s h0 hsr
    unfold stepAlg stepBlock
    rw [h0]
    simp [hsr]
  refine ⟨part1, ?_, ?_⟩
  · intro n cfg s h0 hsr
    induction n with
    | zero => rfl
    | succ k ih =>
        rw [Function.iterate_succ_apply, part1 cfg s h0 hsr]
        exact ih
  · intro cfg s hg
    have h : (stepBlock cfg s.tracker).1.prevGate = s.tracker.prevGate ∧
        (stepBlock cfg s.tracker).1.cvNoteActive = s.tracker.cvNoteActive ∧
        (stepBlock cfg s.tracker).1.currentCVNote = s.tracker.currentCVNote ∧
        (stepBlock cfg s.tracker).2.filter isNoteEvent = [] := by
      by_cases hsr : cfg.sampleRate = s.tracker.lastSampleRate
      · have h := foldl_gate_none cfg hg (List.range (4 * cfg.numFramesBy4))
          (s.tracker, ([] : List SynthEvent))
        simpa [stepBlock, hsr] using h
      · have h := foldl_gate_none cfg hg (List.range (4 * cfg.numFramesBy4))
          ({ s.tracker with lastSampleRate := cfg.sampleRate },
           [SynthEvent.setSampleRate cfg.sampleRate])
        simpa [stepBlock, hsr, isNoteEvent, List.filter] using h
    exact ⟨h.2.2.2, h.1, h.2.1, h.2.2.1, rfl⟩

/-- Witness for C9 amended: a zero-length call and five iterated
zero-length calls fix the state and emit nothing, and a 4-sample
unpatched call emits no note event and preserves the gate/note and UI
state. -/
theorem C9_zero_length_witness :
    stepAlg cfgZeroFrames stSmoothingAway = (stSmoothingAway, []) ∧
    (fun s => (stepAlg cfgZeroFrames s).1)^[5] stSmoothingAway = stSmoothingAway ∧
    ((stepAlg cfgUnpatched stSmoothingAway).2.filter isNoteEvent = [] ∧
     (stepAlg cfgUnpatched stSmoothingAway).1.tracker.prevGate
        = stSmoothingAway.tracker.prevGate ∧
     (stepAlg cfgUnpatched stSmoothingAway).1.tracker.cvNoteActive
        = stSmoothingAway.tracker.cvNoteActive ∧
     (stepAlg cfgUnpatched stSmoothingAway).1.tracker.currentCVNote
        = stSmoothingAway.tracker.currentCVNote ∧
     (stepAlg cfgUnpatched stSmoothingAway).1.ui = stSmoothingAway.ui) :=
  ⟨C9_zero_length.1 cfgZeroFrames stSmoothingAway rfl rfl,
   C9_zero_length.2.1 5 cfgZeroFrames stSmoothingAway rfl rfl,
   C9_zero_length.2.2 cfgUnpatched stSmoothingAway rfl⟩

/-- C10: every MIDI note-off (status nibble 0x80) passing the channel
filter is dispatched as a noteOn call with velocity 0 — the code has no
dedicated note-off entry — with the release-velocity byte ignored, and
the algorithm state is untouched. -/
theorem C10_midi_noteoff :
    ∀ (ch : ℤ) (s : AlgState) (b0 b1 b2 : ℕ),
      b0 &&& 0xf0 = 0x80 →
      (ch ≤ 0 ∨ ((b0 &&& 0x0f : ℕ) : ℤ) = ch - 1) →
      (midiMessageS ch s b0 b1 b2).2 = [SynthEvent.noteOn b1 0] ∧
      (∀ b2' : ℕ, (midiMessageS ch s b0 b1 b2').2 = (midiMessageS ch s b0 b1 b2).2) ∧
      (midiMessageS ch s b0 b1 b2).1 = s := by
  intro ch s b0 b1 b2 hstat hch
  have hfilter : ¬(ch > 0 ∧ ((b0 &&& 0x0f : ℕ) : ℤ) ≠ ch - 1) := by
    rcases hch with h | h
    · exact fun hc => absurd hc.1 (not_lt.mpr h)
    · exact fun hc => hc.2 h
  have hev : ∀ v2 : ℕ, (midiMessageS ch s b0 b1 v2).2 = [SynthEvent.noteOn b1 0] := by
    intro v2
    simp [midiMessageS, midiMessage, hfilter, hstat]
  exact ⟨hev b2, fun b2' => (hev b2').trans (hev b2).symm, rfl⟩

/-- Witness for C10: note-off 0x85 (channel 5) with release velocity 99
under channel filter 6. -/
theorem C10_midi_noteoff_witness :
    (midiMessageS 6 (initAlgState 48000) 0x85 64 99).2 = [SynthEvent.noteOn 64 0] ∧
    (∀ b2' : ℕ, (midiMessageS 6 (initAlgState 48000) 0x85 64 b2').2
      = (midiMessageS 6 (initAlgState 48000) 0x85 64 99).2) ∧
    (midiMessageS 6 (initAlgState 48000) 0x85 64 99).1 = initAlgState 48000 :=
  C10_midi_noteoff 6 (initAlgState 48000) 0x85 64 99 (by decide) (Or.inr (by decide))

end NT303
